import Mathlib

/-!
Verification development for the VoidBJ run-state engine.

The definitions below are a shallow embedding of the game engine found in
`src/App.tsx` (first application version), `src/utils/gameLogic.ts`,
`src/types.ts` and `src/constants.ts`.  JavaScript numbers are modelled as
exact rationals, arrays as lists, and the injected random source
(`Math.random`) as explicit parameters (a stream of rolls bounded in
`[0, 1)`, a shuffle function, and choice functions for upgrade offers and
curse selection).  Display-only fields (card art, descriptions) are omitted.
Fallible array pops guarded by the source with a non-null assertion are
modelled with `Option`.
-/

namespace VoidBJ

/-- Suits, as in `types.ts`. -/
inductive Suit
  | hearts | diamonds | clubs | spades
deriving DecidableEq

/-- Ranks, as in `types.ts` (strings `'2'..'A'` there). -/
inductive Rank
  | two | three | four | five | six | seven | eight | nine | ten
  | jack | queen | king | ace
deriving DecidableEq

/-- Blackjack value assigned to each rank by `createDeck` in `gameLogic.ts`:
number cards keep their face value, `J`/`Q`/`K` are 10, `A` is 11. -/
def rankValue : Rank → Nat
  | .two => 2 | .three => 3 | .four => 4 | .five => 5 | .six => 6
  | .seven => 7 | .eight => 8 | .nine => 9 | .ten => 10
  | .jack => 10 | .queen => 10 | .king => 10 | .ace => 11

/-- Upgrade effect kinds, as in `types.ts`. -/
inductive EffectType
  | bonus_credits | bonus_essence | shield | critical | reduce_corruption
  | on_bust_essence | on_21_credits | risk_corruption
deriving DecidableEq

/-- A card upgrade catalog entry (`CardUpgrade` in `types.ts`); the
display-only `description` field is omitted. -/
structure CardUpgrade where
  id : String
  name : String
  cost : ℚ
  effectType : EffectType
  value : ℚ
deriving DecidableEq

/-- A playing card (`PlayingCard` in `types.ts`). -/
structure PlayingCard where
  id : String
  suit : Suit
  rank : Rank
  value : Nat
  upgrades : List CardUpgrade
deriving DecidableEq

/-- Consumable effect kinds, as in `types.ts`. -/
inductive ConsumableType
  | reveal_dealer | reduce_threat | guarantee_10
deriving DecidableEq

/-- A consumable item (`Consumable` in `types.ts`), description omitted. -/
structure Consumable where
  id : String
  name : String
  cost : ℚ
  type : ConsumableType
deriving DecidableEq

/-- Passive kind (`PassiveType` in `types.ts`). -/
inductive PassiveType
  | boon | curse
deriving DecidableEq

/-- A passive boon or curse (`Passive` in `types.ts`); description and
rarity (display-only) are omitted. -/
structure Passive where
  id : String
  name : String
  type : PassiveType
  cost : Option ℚ
deriving DecidableEq

/-- Game phases (`GamePhase` in `types.ts`). -/
inductive GamePhase
  | betting | playing | dealer_turn | round_over | forge | game_over
  | upgrade_selection
deriving DecidableEq

/-- The per-run state (`GameState` in `types.ts`). -/
structure GameState where
  credits : ℚ
  essence : ℚ
  playerDeck : List PlayingCard
  drawPile : List PlayingCard
  discardPile : List PlayingCard
  inventory : List Consumable
  activePassives : List Passive
  unlockedUpgrades : List String
  offeredUpgradeIds : List String
  playerHand : List PlayingCard
  dealerHand : List PlayingCard
  currentBet : ℚ
  dealerCardRevealed : Bool
  houseLevel : Nat
  corruptionTokens : ℚ
  corruptionThreshold : ℚ
  phase : GamePhase
  message : String
deriving DecidableEq

/-! ## Scoring (`calculateHandScore` in `gameLogic.ts`) -/

/-- The `while (score > 21 && aces > 0)` loop of `calculateHandScore`,
with the remaining soft aces as structural fuel. -/
def softenScore : Nat → Nat → Nat
  | score, 0 => score
  | score, a + 1 => if 21 < score then softenScore (score - 10) a else score

/-- Hand scoring from `gameLogic.ts`: sum the stored card values
(aces stored as 11), count aces, then soften while over 21. -/
def calculateHandScore (hand : List PlayingCard) : Nat :=
  softenScore ((hand.map (fun c => c.value)).sum)
    (hand.countP (fun c => c.rank == Rank.ace))

/-- Low value of a rank for the reference scoring: an ace counts 1,
everything else its blackjack value. -/
def lowValue (r : Rank) : Nat :=
  if r == Rank.ace then 1 else rankValue r

/-- Reference definition of standard blackjack soft-ace scoring, written
from the specification: each ace may count 1 or 11; the score is the
largest achievable total that does not exceed 21, or the minimal total if
every choice busts. -/
def standardScore (hand : List PlayingCard) : Nat :=
  let low := (hand.map (fun c => lowValue c.rank)).sum
  let aces := hand.countP (fun c => c.rank == Rank.ace)
  (((List.range (aces + 1)).map (fun j => low + 10 * j)).filter
    (fun t => decide (t ≤ 21))).foldr max low

/-- Best achievable total for the reference scoring, from the all-aces-low
total `low` with `a` aces available to promote by 10 each. -/
def bestTotal (low a : Nat) : Nat :=
  (((List.range (a + 1)).map (fun j => low + 10 * j)).filter
    (fun t => decide (t ≤ 21))).foldr max low

/-- A card as produced by `createDeck` in `gameLogic.ts`: its stored value
is derived from its rank and its upgrade list is empty. -/
def baseCard (id : String) (suit : Suit) (rank : Rank) : PlayingCard :=
  { id := id, suit := suit, rank := rank, value := rankValue rank,
    upgrades := [] }

/-! ## Static catalogs (`constants.ts`) -/

def midas_touch : CardUpgrade :=
  { id := "midas_touch", name := "Midas Touch", cost := 50,
    effectType := .bonus_credits, value := 5 }

def soul_siphon : CardUpgrade :=
  { id := "soul_siphon", name := "Soul Siphon", cost := 30,
    effectType := .bonus_essence, value := 2 }

def firewall_shard : CardUpgrade :=
  { id := "firewall_shard", name := "Firewall Shard", cost := 75,
    effectType := .shield, value := 0.5 }

def lucky_charm : CardUpgrade :=
  { id := "lucky_charm", name := "Lucky Charm", cost := 100,
    effectType := .critical, value := 0.25 }

def credit_cache : CardUpgrade :=
  { id := "credit_cache", name := "Credit Cache", cost := 120,
    effectType := .bonus_credits, value := 15 }

def essence_well : CardUpgrade :=
  { id := "essence_well", name := "Essence Well", cost := 80,
    effectType := .bonus_essence, value := 4 }

def high_roller : CardUpgrade :=
  { id := "high_roller", name := "High Roller", cost := 200,
    effectType := .critical, value := 0.50 }

def emergency_breaker : CardUpgrade :=
  { id := "emergency_breaker", name := "Emergency Breaker", cost := 150,
    effectType := .shield, value := 0.9 }

def cooling_fan : CardUpgrade :=
  { id := "cooling_fan", name := "Cooling Fan", cost := 100,
    effectType := .reduce_corruption, value := 1 }

def recycler : CardUpgrade :=
  { id := "recycler", name := "Recycler", cost := 60,
    effectType := .on_bust_essence, value := 5 }

def jackpot_protocol : CardUpgrade :=
  { id := "jackpot_protocol", name := "Jackpot Protocol", cost := 110,
    effectType := .on_21_credits, value := 50 }

def hybrid_chip : CardUpgrade :=
  { id := "hybrid_chip", name := "Hybrid Chip", cost := 60,
    effectType := .bonus_credits, value := 3 }

def risk_processor : CardUpgrade :=
  { id := "risk_processor", name := "Risk Processor", cost := 80,
    effectType := .risk_corruption, value := 15 }

def essence_converter : CardUpgrade :=
  { id := "essence_converter", name := "Essence Converter", cost := 70,
    effectType := .bonus_essence, value := 3 }

def parity_bit : CardUpgrade :=
  { id := "parity_bit", name := "Parity Bit", cost := 90,
    effectType := .bonus_credits, value := 10 }

/-- The `UPGRADES` table of `constants.ts`, in source order. -/
def UPGRADES : List CardUpgrade :=
  [midas_touch, soul_siphon, firewall_shard, lucky_charm, credit_cache,
   essence_well, high_roller, emergency_breaker, cooling_fan, recycler,
   jackpot_protocol, hybrid_chip, risk_processor, essence_converter,
   parity_bit]

/-- The `STARTING_UPGRADE_IDS` constant of `constants.ts`. -/
def STARTING_UPGRADE_IDS : List String :=
  ["midas_touch", "soul_siphon", "firewall_shard"]

/-- The `PASSIVES` table of `constants.ts`. -/
def PASSIVES : List Passive :=
  [{ id := "auto_miner", name := "Auto-Miner", type := .boon, cost := some 100 },
   { id := "vip_protocol", name := "VIP Protocol", type := .boon, cost := some 150 },
   { id := "backup_battery", name := "Backup Battery", type := .boon, cost := some 80 },
   { id := "memory_leak", name := "Memory Leak", type := .curse, cost := none },
   { id := "encryption_error", name := "Encryption Error", type := .curse, cost := none },
   { id := "power_surge", name := "Power Surge", type := .curse, cost := none }]

/-- The `CONSUMABLES` table of `constants.ts`. -/
def CONSUMABLES : List Consumable :=
  [{ id := "data_spike", name := "Data Spike", cost := 15, type := .reveal_dealer },
   { id := "coolant", name := "System Coolant", cost := 25, type := .reduce_threat },
   { id := "override_chip", name := "Override Chip", cost := 40, type := .guarantee_10 }]

/-! ## Gameplay helpers (`App.tsx`) -/

/-- `Math.max` on rationals: the larger argument.  (Kept as an explicit
comparison so that it evaluates by kernel reduction.) -/
def jsMax (a b : ℚ) : ℚ := if a ≤ b then b else a

lemma jsMax_eq_max (a b : ℚ) : jsMax a b = max a b := by
  rw [jsMax, max_def]

lemma jsMax_zero_nonneg (x : ℚ) : 0 ≤ jsMax 0 x := by
  unfold jsMax
  split
  · assumption
  · exact le_refl 0

/-- Passive lookup `hasPassive` from `App.tsx`. -/
def hasPassive (s : GameState) (id : String) : Bool :=
  s.activePassives.any (fun p => p.id == id)

/-- The id string of the Auto-Miner boon. -/
def autoMinerId : String := "auto_miner"

/-- The id string of the Backup Battery boon. -/
def backupBatteryId : String := "backup_battery"

/-- The id string of the Memory Leak curse. -/
def memoryLeakId : String := "memory_leak"

/-- The id string of the Encryption Error curse. -/
def encryptionErrorId : String := "encryption_error"

/-- The id string of the VIP Protocol boon. -/
def vipProtocolId : String := "vip_protocol"

/-- Boss-round test `state.houseLevel > 0 && state.houseLevel % 5 === 0`
from `App.tsx`. -/
def isBossLevel (houseLevel : Nat) : Prop :=
  0 < houseLevel ∧ houseLevel % 5 = 0

instance (n : Nat) : Decidable (isBossLevel n) := by
  unfold isBossLevel; infer_instance

/-- Result of `drawCard` in `App.tsx`: the drawn card (if any) and the new
draw and discard piles. -/
structure DrawResult where
  card : Option PlayingCard
  newDraw : List PlayingCard
  newDiscard : List PlayingCard

/-- The `drawCard` helper of `App.tsx`: when the draw pile is empty the
discard pile is reshuffled into it (`shuffle` is the injected random
shuffle); then the tail card is popped.  A pop from two empty piles yields
no card (the source would produce `undefined`). -/
def drawCard (shuffle : List PlayingCard → List PlayingCard)
    (drawPile discardPile : List PlayingCard) : DrawResult :=
  let nd := if drawPile.isEmpty then shuffle discardPile else drawPile
  let ndc := if drawPile.isEmpty then ([] : List PlayingCard) else discardPile
  match nd.getLast? with
  | none => { card := none, newDraw := nd, newDiscard := ndc }
  | some c => { card := some c, newDraw := nd.dropLast, newDiscard := ndc }

/-- Net effect of a freshly dealt card, as returned by
`processCardEffects` in `App.tsx`. -/
structure Effects where
  essenceDelta : ℚ
  creditDelta : ℚ
  corruptionDelta : ℚ
deriving DecidableEq

/-- Zero effects, used when no card was drawn. -/
def Effects.zero : Effects := { essenceDelta := 0, creditDelta := 0, corruptionDelta := 0 }

/-- Per-upgrade contribution inside the `forEach` of `processCardEffects`. -/
def upgradeEffect (upg : CardUpgrade) : Effects :=
  { essenceDelta :=
      (if upg.effectType = .bonus_essence then upg.value else 0)
      + (if upg.id = "hybrid_chip" then 1 else 0),
    creditDelta :=
      (if upg.effectType = .bonus_credits then upg.value else 0)
      + (if upg.effectType = .risk_corruption then upg.value else 0)
      + (if upg.id = "essence_converter" then -5 else 0),
    corruptionDelta :=
      (if upg.effectType = .reduce_corruption then -upg.value else 0)
      + (if upg.effectType = .risk_corruption then 1 else 0) }

/-- The `processCardEffects` helper of `App.tsx`: base essence gain of 1
(zeroed by the house-level-3 essence tax), folded with every attached
upgrade; `hybrid_chip` and `essence_converter` carry hard-coded secondary
effects keyed on their ids. -/
def processCardEffects (s : GameState) (card : PlayingCard) : Effects :=
  let base : Effects :=
    { essenceDelta := if s.houseLevel = 3 then 0 else 1,
      creditDelta := 0, corruptionDelta := 0 }
  card.upgrades.foldl
    (fun acc upg =>
      { essenceDelta := acc.essenceDelta + (upgradeEffect upg).essenceDelta,
        creditDelta := acc.creditDelta + (upgradeEffect upg).creditDelta,
        corruptionDelta := acc.corruptionDelta + (upgradeEffect upg).corruptionDelta })
    base

/-- The `moveHighValueCardToTop` helper of `gameLogic.ts`: relocate the
first value-10 card to the tail (next to be popped). -/
def moveHighValueCardToTop (deck : List PlayingCard) : List PlayingCard :=
  match deck.find? (fun c => c.value == 10) with
  | none => deck
  | some c => deck.eraseP (fun c => c.value == 10) ++ [c]

/-- Boss-round relocation in `placeBet`: move the first King of the dealer
deck to the tail so that it is dealt first. -/
def relocateKing (deck : List PlayingCard) : List PlayingCard :=
  match deck.find? (fun c => c.rank == Rank.king) with
  | none => deck
  | some k => deck.eraseP (fun c => c.rank == Rank.king) ++ [k]

/-! ## Actions (`App.tsx`) -/

/-- The `placeBet` action of `App.tsx`.  `shuffle` is the injected random
shuffle used by pile recycling; `dealerDeck` is the freshly shuffled full
deck the dealer draws from (`shuffleDeck(createDeck())` at the call site).
The function performs no phase check; its only guard is
`state.credits < betAmount`.  Dealer pops carry a non-null assertion in
the source, so an exhausted dealer deck is modelled as `none`. -/
def placeBet (shuffle : List PlayingCard → List PlayingCard)
    (dealerDeck : List PlayingCard) (betAmount : ℚ) (s : GameState) :
    Option GameState :=
  if s.credits < betAmount then
    some { s with message := "Not enough credits." }
  else
    let extraEssence : ℚ := if hasPassive s autoMinerId then 1 else 0
    let backupEssence : ℚ :=
      if s.essence = 0 ∧ hasPassive s backupBatteryId then 5 else 0
    let r1 := drawCard shuffle s.drawPile s.discardPile
    let hand1 := match r1.card with | some c => [c] | none => []
    let eff1 := match r1.card with
      | some c => processCardEffects s c
      | none => Effects.zero
    let dd := if isBossLevel s.houseLevel then relocateKing dealerDeck else dealerDeck
    match dd.getLast? with
    | none => none
    | some d1 =>
      let r2 := drawCard shuffle r1.newDraw r1.newDiscard
      let hand2 := match r2.card with | some c => [c] | none => []
      let eff2 := match r2.card with
        | some c => processCardEffects s c
        | none => Effects.zero
      match dd.dropLast.getLast? with
      | none => none
      | some d2 =>
        let playerHand := hand1 ++ hand2
        let totalEssenceGain := extraEssence + backupEssence
          + eff1.essenceDelta + eff2.essenceDelta
        let totalCreditGain := eff1.creditDelta + eff2.creditDelta
        let totalCorruptionDelta := eff1.corruptionDelta + eff2.corruptionDelta
        let pScore := calculateHandScore playerHand
        let nextPhase := if pScore = 21 then GamePhase.dealer_turn else GamePhase.playing
        let msg := if isBossLevel s.houseLevel then
            "BOSS PROTOCOL ACTIVE: THE ARCHITECT" else "Hit or Stand?"
        some { s with
          credits := s.credits - betAmount + totalCreditGain,
          essence := s.essence + totalEssenceGain,
          corruptionTokens := jsMax 0 (s.corruptionTokens + totalCorruptionDelta),
          currentBet := betAmount,
          dealerCardRevealed := false,
          playerHand := playerHand,
          dealerHand := [d1, d2],
          drawPile := r2.newDraw,
          discardPile := r2.newDiscard,
          phase := nextPhase,
          message := msg }

/-- The `useConsumable` action of `App.tsx`: apply the item effect, then
remove the item from the inventory.  An out-of-range index is a no-op. -/
def useConsumable (idx : Nat) (s : GameState) : GameState :=
  match s.inventory.get? idx with
  | none => s
  | some item =>
    let s1 := match item.type with
      | .reveal_dealer => { s with dealerCardRevealed := true }
      | .reduce_threat => { s with corruptionTokens := jsMax 0 (s.corruptionTokens - 2) }
      | .guarantee_10 => { s with drawPile := moveHighValueCardToTop s.drawPile }
    let msg := match item.type with
      | .reveal_dealer => "Used " ++ item.name ++ "."
      | .reduce_threat => "Threat level reduced."
      | .guarantee_10 => "Next card override active."
    { s1 with inventory := s.inventory.eraseIdx idx, message := msg }

/-- The `hit` action of `App.tsx` (synchronous state update only; the
deferred `resolveRound`/`stand` calls it schedules are modelled
separately).  If both piles are exhausted no state change occurs. -/
def hit (shuffle : List PlayingCard → List PlayingCard) (s : GameState) :
    GameState :=
  let draw := drawCard shuffle s.drawPile s.discardPile
  match draw.card with
  | none => s
  | some newCard =>
    let newHand := s.playerHand ++ [newCard]
    let effects := processCardEffects s newCard
    let hitCost : ℚ := if hasPassive s memoryLeakId then 1 else 0
    let score := calculateHandScore newHand
    let nextPhase := if 21 < score then GamePhase.round_over else s.phase
    let msg := if 21 < score then "Bust!" else s.message
    { s with
      playerHand := newHand,
      drawPile := draw.newDraw,
      discardPile := draw.newDiscard,
      essence := s.essence + effects.essenceDelta,
      credits := s.credits + effects.creditDelta - hitCost,
      corruptionTokens := jsMax 0 (s.corruptionTokens + effects.corruptionDelta),
      phase := nextPhase,
      message := msg }

/-- The Double Down button handler of `App.tsx`.  It issues two functional
`setState` updates in one event: the first deducts the current bet and
doubles it; the second (written against the stale closure `state` for its
reads) deducts the *pending* bet and doubles the *pending* bet again.
React chains functional updaters, so both updates apply in sequence; this
is modelled faithfully by threading `s1` through the second update. -/
def doubleDown (shuffle : List PlayingCard → List PlayingCard)
    (s : GameState) : GameState :=
  let s1 := { s with credits := s.credits - s.currentBet,
                     currentBet := s.currentBet * 2 }
  let draw := drawCard shuffle s.drawPile s.discardPile
  match draw.card with
  | none => s1
  | some newCard =>
    let newHand := s.playerHand ++ [newCard]
    let effects := processCardEffects s newCard
    let hitCost : ℚ := if hasPassive s memoryLeakId then 1 else 0
    let score := calculateHandScore newHand
    let nextPhase := if 21 < score then GamePhase.round_over else GamePhase.dealer_turn
    let msg := if 21 < score then "Bust on Double!" else "Double Down!"
    { s1 with
      playerHand := newHand,
      drawPile := draw.newDraw,
      discardPile := draw.newDiscard,
      essence := s1.essence + effects.essenceDelta + 5,
      credits := s1.credits - s1.currentBet + effects.creditDelta - hitCost,
      corruptionTokens := jsMax 0 (s1.corruptionTokens + effects.corruptionDelta),
      currentBet := s1.currentBet * 2,
      phase := nextPhase,
      message := msg }

/-! ## Economy and forge (`App.tsx`) -/

/-- `Math.floor` on a rational, as applied to JavaScript numbers. -/
def jsFloor (q : ℚ) : ℚ := (q.floor : ℚ)

lemma jsFloor_eq (q : ℚ) : jsFloor q = ((⌊q⌋ : ℤ) : ℚ) := by
  rw [jsFloor, Rat.floor_def', ← Rat.floor_def]

/-- Price of a card upgrade as computed inside `buyUpgrade`:
base cost, then ×1.5 floored if house level ≥ 4, then ×1.2 floored under
the `encryption_error` curse, then ×0.9 floored with the
`priority_access` meta-hack. -/
def buyUpgradeCost (s : GameState) (hasPriority : Bool) (base : ℚ) : ℚ :=
  let c1 := if 4 ≤ s.houseLevel then jsFloor (base * 1.5) else base
  let c2 := if hasPassive s encryptionErrorId then jsFloor (c1 * 1.2) else c1
  if hasPriority then jsFloor (c2 * 0.9) else c2

/-- Price of a consumable or passive as computed inside `buyConsumable`
and `buyPassive`: ×1.2 floored under `encryption_error`, then ×0.9
floored with `priority_access` (no house-level surcharge). -/
def buyItemCost (s : GameState) (hasPriority : Bool) (base : ℚ) : ℚ :=
  let c1 := if hasPassive s encryptionErrorId then jsFloor (base * 1.2) else base
  if hasPriority then jsFloor (c1 * 0.9) else c1

/-- Reference pricing pipeline, written from the specification: base cost
from the catalog, ×1.5 if house level ≥ 4 (upgrades only), ×1.2 if the
`encryption_error` curse is active, ×0.9 if the `priority_access`
meta-hack is unlocked, flooring to an integer after each multiplication. -/
def specPurchasePrice (isUpgrade : Bool) (houseLevel : Nat)
    (encryption priority : Bool) (base : ℚ) : ℚ :=
  let c1 := if isUpgrade ∧ 4 ≤ houseLevel then jsFloor (base * 1.5) else base
  let c2 := if encryption then jsFloor (c1 * 1.2) else c1
  if priority then jsFloor (c2 * 0.9) else c2

/-- The `buyUpgrade` action of `App.tsx` (with the selected card id passed
explicitly): deducts the computed cost and appends the upgrade to the
selected card in the master deck and every pile. -/
def buyUpgrade (hasPriority : Bool) (upgrade : CardUpgrade)
    (selectedCardId : String) (s : GameState) : GameState :=
  let cost := buyUpgradeCost s hasPriority upgrade.cost
  if s.essence < cost then s
  else
    let addUpg := fun (c : PlayingCard) =>
      if c.id = selectedCardId then { c with upgrades := c.upgrades ++ [upgrade] } else c
    { s with
      essence := s.essence - cost,
      playerDeck := s.playerDeck.map addUpg,
      drawPile := s.drawPile.map addUpg,
      discardPile := s.discardPile.map addUpg,
      playerHand := s.playerHand.map addUpg }

/-- The `buyConsumable` action of `App.tsx`. -/
def buyConsumable (hasPriority : Bool) (item : Consumable) (s : GameState) :
    GameState :=
  let cost := buyItemCost s hasPriority item.cost
  if 3 ≤ s.inventory.length then { s with message := "Inventory full." }
  else if s.essence < cost then { s with message := "Not enough Essence." }
  else
    { s with
      essence := s.essence - cost,
      inventory := s.inventory ++ [item],
      message := "Acquired " ++ item.name ++ "." }

/-- Purge cost from `purgeCard` in `App.tsx`:
`75 + Math.max(0, 52 - masterDeck.length) * 10`. -/
def purgeCost (s : GameState) : ℚ :=
  75 + jsMax 0 ((52 : ℚ) - s.playerDeck.length) * 10

/-- The `purgeCard` action of `App.tsx` (selected card id passed
explicitly): refuse when the master deck has 5 or fewer cards or essence
is insufficient; otherwise deduct the cost and remove the card by identity
from the master deck, draw pile and discard pile. -/
def purgeCard (selectedCardId : String) (s : GameState) : GameState :=
  let cost := purgeCost s
  if s.playerDeck.length ≤ 5 then
    { s with message := "Deck too small to purge." }
  else if s.essence < cost then
    { s with message := "Need " ++ toString cost ++ " Essence to purge." }
  else
    { s with
      essence := s.essence - cost,
      playerDeck := s.playerDeck.filter (fun c => !(c.id == selectedCardId)),
      drawPile := s.drawPile.filter (fun c => !(c.id == selectedCardId)),
      discardPile := s.discardPile.filter (fun c => !(c.id == selectedCardId)),
      message := "Card removed from database." }

/-! ## Round resolution (`resolveRound` in `App.tsx`) -/

/-- The random inputs consumed by `resolveRound`: the `Math.random()`
stream used for shield rolls (one roll per shield upgrade, in hand order),
the random shuffle-and-slice that picks the three offered upgrade ids at a
level-up, and the random index used to pick a curse. -/
structure ResolveRng where
  rolls : Nat → ℚ
  offerPick : List CardUpgrade → List String
  curseIdx : Nat

/-- All shield upgrades attached to the player hand, in the iteration
order of the nested `forEach` loops of `resolveRound`. -/
def shieldUpgrades (pHand : List PlayingCard) : List CardUpgrade :=
  (pHand.map (fun c => c.upgrades.filter
    (fun u => u.effectType == EffectType.shield))).flatten

/-- The bust-mitigation check of `resolveRound`: every shield upgrade gets
an independent trial `Math.random() < value`; any success triggers. -/
def shieldTriggered (rolls : Nat → ℚ) (pHand : List PlayingCard) : Bool :=
  (shieldUpgrades pHand).enum.any (fun p => decide (rolls p.1 < p.2.value))

/-- Total `on_bust_essence` value over the player hand (the on-bust hook
of `resolveRound`). -/
def onBustEssence (pHand : List PlayingCard) : ℚ :=
  (((pHand.map (fun c => c.upgrades)).flatten.filter
    (fun u => u.effectType == EffectType.on_bust_essence)).map
    (fun u => u.value)).sum

/-- Total `on_21_credits` value over the player hand (the on-21 hook of
`resolveRound`). -/
def on21Credits (pHand : List PlayingCard) : ℚ :=
  (((pHand.map (fun c => c.upgrades)).flatten.filter
    (fun u => u.effectType == EffectType.on_21_credits)).map
    (fun u => u.value)).sum

/-- The `win`/`payout`/`essenceBonus`/message outcome computed by the
branch cascade of `resolveRound`, before the win multiplier is applied. -/
structure Outcome where
  win : Bool
  payout : ℚ
  essenceBonus : ℚ
  msg : String
deriving DecidableEq

/-- The branch cascade of `resolveRound` in source order: bust (with
shield mitigation), dealer bust, player natural blackjack (push against a
dealer natural), dealer natural blackjack, higher score, equal scores
(house level dependent), otherwise loss. -/
def baseOutcome (rolls : Nat → ℚ) (s : GameState)
    (pHand dHand : List PlayingCard) (bet : ℚ) (busted : Bool) : Outcome :=
  let pScore := calculateHandScore pHand
  let dScore := calculateHandScore dHand
  let pBlackjack := pHand.length = 2 ∧ pScore = 21
  let dBlackjack := dHand.length = 2 ∧ dScore = 21
  if busted then
    if shieldTriggered rolls pHand then
      { win := false, payout := bet * 0.5, essenceBonus := 0,
        msg := "FAILURE MITIGATED [SHIELD]." }
    else
      { win := false, payout := 0, essenceBonus := 0, msg := "Busted! House wins." }
  else if 21 < dScore then
    { win := true, payout := bet * 2, essenceBonus := 0, msg := "Dealer busts! You win!" }
  else if pBlackjack then
    if dBlackjack then
      { win := false, payout := bet, essenceBonus := 0, msg := "Push." }
    else
      { win := true, payout := bet + bet * 1.5, essenceBonus := 25,
        msg := "Blackjack! (3:2 Payout)" }
  else if dBlackjack then
    { win := false, payout := 0, essenceBonus := 0,
      msg := "Dealer has Blackjack. House wins." }
  else if dScore < pScore then
    { win := true, payout := bet * 2, essenceBonus := 10, msg := "You win!" }
  else if pScore = dScore then
    if 7 ≤ s.houseLevel ∨ isBossLevel s.houseLevel then
      { win := false, payout := 0, essenceBonus := 0,
        msg := if isBossLevel s.houseLevel then "Boss wins Ties."
               else "Tie! House wins due to corruption." }
    else if s.houseLevel ≤ 2 then
      { win := true, payout := bet * 2, essenceBonus := 0,
        msg := "Tie! System yields to user." }
    else
      { win := false, payout := bet, essenceBonus := 0, msg := "Push." }
  else
    { win := false, payout := 0, essenceBonus := 0, msg := "House wins." }

/-- The win multiplier of `resolveRound`: 1, plus every `critical` upgrade
value on the player hand, plus 0.1 with the `vip_protocol` boon. -/
def winMultiplier (s : GameState) (pHand : List PlayingCard) : ℚ :=
  1 + (((pHand.map (fun c => c.upgrades)).flatten.filter
        (fun u => u.effectType == EffectType.critical)).map
        (fun u => u.value)).sum
    + (if hasPassive s vipProtocolId then 0.1 else 0)

/-- Multiplier application of `resolveRound`: on a win the profit portion
is scaled, `payout = bet + (payout - bet) * multiplier`; otherwise the
payout is unchanged. -/
def adjustedPayout (s : GameState) (pHand : List PlayingCard) (bet : ℚ)
    (o : Outcome) : ℚ :=
  if o.win then bet + (o.payout - bet) * winMultiplier s pHand else o.payout

/-- Progression data computed at the end of `resolveRound`. -/
structure ProgressResult where
  tokens : ℚ
  level : Nat
  threshold : ℚ
  passives : List Passive
  phase : GamePhase
  offered : List String
  msg : String

/-- The progression block of `resolveRound` (`App.tsx` lines 503-534):
on a win, corruption tokens increase by 1; reaching the threshold raises
the house level, resets tokens, raises the threshold by 2, offers three
locked upgrades if any remain, and past level 5 grants a random missing
curse on even levels. -/
def progressAfterWin (rng : ResolveRng) (s : GameState) (o : Outcome) :
    ProgressResult :=
  if o.win then
    let c1 := s.corruptionTokens + 1
    if s.corruptionThreshold ≤ c1 then
      let lvl := s.houseLevel + 1
      let locked := UPGRADES.filter (fun u => !(s.unlockedUpgrades.contains u.id))
      let offered := if locked.isEmpty then ([] : List String) else rng.offerPick locked
      let ph := if locked.isEmpty then GamePhase.round_over else GamePhase.upgrade_selection
      let msg1 := o.msg ++ " The House grows stronger!"
      let withCurse :=
        if 5 < lvl ∧ lvl % 2 = 0 then
          let curses := PASSIVES.filter (fun p =>
            p.type == PassiveType.curse
            && !(s.activePassives.any (fun ap => ap.id == p.id)))
          match curses.get? (rng.curseIdx % curses.length) with
          | some c => (s.activePassives ++ [c],
              msg1 ++ " SYSTEM GLITCH: " ++ c.name ++ " DETECTED.")
          | none => (s.activePassives, msg1)
        else (s.activePassives, msg1)
      { tokens := 0, level := lvl, threshold := s.corruptionThreshold + 2,
        passives := withCurse.1, phase := ph, offered := offered,
        msg := withCurse.2 }
    else
      { tokens := c1, level := s.houseLevel, threshold := s.corruptionThreshold,
        passives := s.activePassives, phase := GamePhase.round_over,
        offered := [], msg := o.msg }
  else
    { tokens := s.corruptionTokens, level := s.houseLevel,
      threshold := s.corruptionThreshold, passives := s.activePassives,
      phase := GamePhase.round_over, offered := [], msg := o.msg }

/-- The `resolveRound` function of `App.tsx`: outcome and payout, on-bust
and on-21 hooks, win multiplier, progression, then the final state merge —
the payout is credited, both hands are appended to the discard pile, and a
credit total below 10 forces `game_over` (the fragment award mutates the
separate `GlobalState` and is not part of the run state). -/
def resolveRound (rng : ResolveRng) (pHand dHand : List PlayingCard)
    (bet : ℚ) (busted : Bool) (s : GameState) : GameState :=
  let pScore := calculateHandScore pHand
  let extraEssence : ℚ := if busted then onBustEssence pHand else 0
  let extraCredits : ℚ := if pScore = 21 then on21Credits pHand else 0
  let o := baseOutcome rng.rolls s pHand dHand bet busted
  let payout := adjustedPayout s pHand bet o
  let prog := progressAfterWin rng s o
  let finalCredits := s.credits + payout + extraCredits
  let ph2 := if finalCredits < 10 then GamePhase.game_over else prog.phase
  let msg2 := if finalCredits < 10 then "SYSTEM FAILURE: INSUFFICIENT FUNDS" else prog.msg
  { s with
    credits := finalCredits,
    essence := s.essence + o.essenceBonus + extraEssence,
    phase := ph2,
    message := msg2,
    corruptionTokens := prog.tokens,
    houseLevel := prog.level,
    corruptionThreshold := prog.threshold,
    activePassives := prog.passives,
    discardPile := s.discardPile ++ pHand ++ dHand,
    offeredUpgradeIds := prog.offered }

/-- The Next Hand button of `App.tsx` (`round_over` → `betting`): clears
both hands and returns to the betting phase. -/
def nextHand (s : GameState) : GameState :=
  { s with
    phase := GamePhase.betting,
    playerHand := [],
    dealerHand := [],
    message := "Place your bet to begin." }

/-! ## Scoring equivalence (claim C5) -/

lemma foldr_max_of_le (l : List Nat) (init : Nat) (h : ∀ y ∈ l, y ≤ init) :
    l.foldr max init = init := by
  induction l with
  | nil => rfl
  | cons x t ih =>
    have hx : x ≤ init := h x (List.mem_cons_self x t)
    have ht := ih (fun y hy => h y (List.mem_cons_of_mem x hy))
    simp only [List.foldr_cons, ht]
    exact Nat.max_eq_right hx

lemma softenScore_eq_bestTotal (a low : Nat) :
    softenScore (low + 10 * a) a = bestTotal low a := by
  induction a with
  | zero =>
    by_cases h : low ≤ 21
    · simp [softenScore, bestTotal, List.range_succ, h]
    · simp [softenScore, bestTotal, List.range_succ, h]
  | succ a ih =>
    by_cases h : low + 10 * (a + 1) ≤ 21
    · have h1 : ¬ 21 < low + 10 * (a + 1) := by omega
      have hstep : softenScore (low + 10 * (a + 1)) (a + 1) = low + 10 * (a + 1) := by
        simp [softenScore, h1]
      rw [hstep]
      unfold bestTotal
      rw [List.range_succ, List.map_append, List.filter_append]
      simp only [List.map_cons, List.map_nil]
      rw [List.filter_cons_of_pos (by simpa using h), List.filter_nil,
        List.foldr_append]
      simp only [List.foldr_cons, List.foldr_nil]
      have hlow : max (low + 10 * (a + 1)) low = low + 10 * (a + 1) :=
        Nat.max_eq_left (by omega)
      rw [hlow]
      refine (foldr_max_of_le _ _ ?_).symm
      intro y hy
      obtain ⟨hy1, _⟩ := List.mem_filter.mp hy
      obtain ⟨j, hj, rfl⟩ := List.mem_map.mp hy1
      have := List.mem_range.mp hj
      omega
    · have h1 : 21 < low + 10 * (a + 1) := by omega
      have hsub : low + 10 * (a + 1) - 10 = low + 10 * a := by omega
      have hstep : softenScore (low + 10 * (a + 1)) (a + 1)
          = softenScore (low + 10 * a) a := by
        simp [softenScore, h1, hsub]
      have hR : bestTotal low (a + 1) = bestTotal low a := by
        unfold bestTotal
        rw [List.range_succ, List.map_append, List.filter_append]
        simp only [List.map_cons, List.map_nil]
        rw [List.filter_cons_of_neg (by simpa using h), List.filter_nil,
          List.append_nil]
      rw [hstep, ih, hR]

lemma sum_value_split (hand : List PlayingCard)
    (h : ∀ c ∈ hand, c.value = rankValue c.rank) :
    (hand.map (fun c => c.value)).sum
      = (hand.map (fun c => lowValue c.rank)).sum
        + 10 * hand.countP (fun c => c.rank == Rank.ace) := by
  induction hand with
  | nil => simp
  | cons c t ih =>
    have hc : c.value = rankValue c.rank := h c (List.mem_cons_self c t)
    have ih' := ih (fun x hx => h x (List.mem_cons_of_mem c hx))
    simp only [List.map_cons, List.sum_cons, List.countP_cons, ih', hc]
    by_cases hace : c.rank = Rank.ace
    · simp [hace, lowValue, rankValue]
      omega
    · have hb : (c.rank == Rank.ace) = false := by
        simpa using hace
      simp only [lowValue, hb, Bool.false_eq_true, if_false]
      omega

/-- Concrete card ids used in worked examples. -/
def idAceOne : String := "ace-1"

def idAceTwo : String := "ace-2"

def idKingOne : String := "king-1"

def idNineOne : String := "nine-1"

/-- An ace of spades with createDeck-derived value. -/
def aceOne : PlayingCard := baseCard idAceOne Suit.spades Rank.ace

/-- A second ace, of hearts. -/
def aceTwo : PlayingCard := baseCard idAceTwo Suit.hearts Rank.ace

/-- A king of clubs. -/
def kingOne : PlayingCard := baseCard idKingOne Suit.clubs Rank.king

/-- A nine of diamonds. -/
def nineOne : PlayingCard := baseCard idNineOne Suit.diamonds Rank.nine

/-- Claim C5: for every hand of createDeck-derived cards,
`calculateHandScore` counts each ace as 11 and then reduces soft aces one
at a time while the total exceeds 21, which reproduces standard blackjack
soft-ace scoring exactly; in particular {A, K} scores 21, {A, A} scores
12, and {A, A, 9} scores 21. -/
theorem score_soft_ace_spec :
    (∀ hand : List PlayingCard,
        (∀ c ∈ hand, c.value = rankValue c.rank) →
        calculateHandScore hand = standardScore hand)
    ∧ calculateHandScore [aceOne, kingOne] = 21
    ∧ calculateHandScore [aceOne, aceTwo] = 12
    ∧ calculateHandScore [aceOne, aceTwo, nineOne] = 21 := by
  refine ⟨?_, by decide, by decide, by decide⟩
  intro hand h
  unfold calculateHandScore standardScore
  rw [sum_value_split hand h]
  rw [Nat.add_comm ((hand.map (fun c => lowValue c.rank)).sum) _]
  rw [Nat.add_comm]
  exact softenScore_eq_bestTotal _ _

/-- Witness for claim C5: the general equivalence applied to the concrete
hand {A, A, 9}, whose standard score is 21. -/
theorem score_soft_ace_spec_witness :
    calculateHandScore [aceOne, aceTwo, nineOne]
      = standardScore [aceOne, aceTwo, nineOne]
    ∧ standardScore [aceOne, aceTwo, nineOne] = 21 :=
  ⟨score_soft_ace_spec.1 _ (by decide), by decide⟩

/-! ## Concrete cards and states for worked examples -/

def idFiveOne : String := "five-1"

def idFiveTwo : String := "five-2"

def idFiveThree : String := "five-3"

def idSevenOne : String := "seven-1"

def idQueenOne : String := "queen-1"

def idJackOne : String := "jack-1"

def idDealerKing : String := "dealer-king"

def idDealerNine : String := "dealer-nine"

def idDealerTen : String := "dealer-ten"

/-- A five of clubs. -/
def fiveOne : PlayingCard := baseCard idFiveOne Suit.clubs Rank.five

/-- A five of hearts. -/
def fiveTwo : PlayingCard := baseCard idFiveTwo Suit.hearts Rank.five

/-- A five of spades. -/
def fiveThree : PlayingCard := baseCard idFiveThree Suit.spades Rank.five

/-- A seven of diamonds. -/
def sevenOne : PlayingCard := baseCard idSevenOne Suit.diamonds Rank.seven

/-- A queen of spades. -/
def queenOne : PlayingCard := baseCard idQueenOne Suit.spades Rank.queen

/-- A jack of hearts. -/
def jackOne : PlayingCard := baseCard idJackOne Suit.hearts Rank.jack

/-- A dealer king, drawn from the dealer's own fresh deck: its id does not
occur in any player pile. -/
def dealerKing : PlayingCard := baseCard idDealerKing Suit.spades Rank.king

/-- A dealer nine from the dealer's own fresh deck. -/
def dealerNine : PlayingCard := baseCard idDealerNine Suit.hearts Rank.nine

/-- A dealer ten from the dealer's own fresh deck. -/
def dealerTen : PlayingCard := baseCard idDealerTen Suit.clubs Rank.ten

/-- A queen carrying one Lucky Charm (critical +0.25) upgrade. -/
def queenLucky : PlayingCard :=
  { baseCard idQueenOne Suit.spades Rank.queen with upgrades := [lucky_charm] }

/-- A test shield upgrade with probability value 1 (always triggers). -/
def shieldSure : CardUpgrade :=
  { id := "sure_shield", name := "Sure Shield", cost := 0,
    effectType := .shield, value := 1 }

/-- A five carrying the always-triggering shield upgrade. -/
def fiveShielded : PlayingCard :=
  { baseCard idFiveOne Suit.clubs Rank.five with upgrades := [shieldSure] }

/-- A deterministic instance of the random inputs of `resolveRound`:
every roll is 0, no upgrades are picked, curse index 0. -/
def rngZero : ResolveRng :=
  { rolls := fun _ => 0, offerPick := fun _ => [], curseIdx := 0 }

/-! ## Pricing (claim C8) -/

/-- Claim C8: every essence-denominated purchase price applies, in order,
×1.5 floored if house level ≥ 4 (card upgrades only), ×1.2 floored under
the encryption-error curse, ×0.9 floored with the priority-access
meta-hack; a base cost of 100 with encryption-error alone costs 120 and
with priority-access also unlocked costs 108; a successful consumable
purchase deducts exactly this price. -/
theorem purchase_price_spec :
    (∀ (s : GameState) (pri : Bool) (base : ℚ),
        buyUpgradeCost s pri base
          = specPurchasePrice true s.houseLevel (hasPassive s encryptionErrorId)
              pri base
        ∧ buyItemCost s pri base
          = specPurchasePrice false s.houseLevel (hasPassive s encryptionErrorId)
              pri base)
    ∧ (∀ (lvl : Nat) (isUpg : Bool), lvl ≤ 3 →
        specPurchasePrice isUpg lvl true false 100 = 120
        ∧ specPurchasePrice isUpg lvl true true 100 = 108)
    ∧ (∀ (pri : Bool) (item : Consumable) (s : GameState),
        s.inventory.length < 3 → buyItemCost s pri item.cost ≤ s.essence →
        (buyConsumable pri item s).essence
          = s.essence - buyItemCost s pri item.cost) := by
  refine ⟨?_, ?_, ?_⟩
  · intro s pri base
    constructor
    · unfold buyUpgradeCost specPurchasePrice
      by_cases h4 : 4 ≤ s.houseLevel
      · simp [h4]
      · simp [h4]
    · unfold buyItemCost specPurchasePrice
      simp
  · intro lvl isUpg hlvl
    have h4 : ¬ (isUpg = true ∧ 4 ≤ lvl) := by
      rintro ⟨-, h⟩; omega
    constructor
    · unfold specPurchasePrice
      rw [if_neg h4]
      norm_num [jsFloor_eq]
    · unfold specPurchasePrice
      rw [if_neg h4]
      norm_num [jsFloor_eq]
  · intro pri item s hls hess
    unfold buyConsumable
    rw [if_neg (by omega), if_neg (not_lt.mpr hess)]

/-- Witness for claim C8: level 1, encryption-error active, base cost 100;
the price is 120 without priority access and 108 with it, and buying the
Data Spike consumable at that computed price deducts it from essence. -/
theorem purchase_price_spec_witness :
    specPurchasePrice false 1 true false 100 = 120
    ∧ specPurchasePrice false 1 true true 100 = 108 :=
  purchase_price_spec.2.1 1 false (by omega)

/-! ## Purge (claim C9) -/

/-- Claim C9: `purgeCard` costs `75 + max(0, 52 − masterDeck.size) × 10`
essence (535 for a 6-card master deck, 75 for a 52-card one); it changes
nothing but the status message when the master deck has at most 5 cards or
essence is below the cost, and otherwise deducts the cost and removes the
selected card, by identity, from the master deck, the draw pile and the
discard pile. -/
theorem purge_card_spec :
    ∀ (s : GameState) (cid : String),
      purgeCost s = 75 + max 0 ((52 : ℚ) - s.playerDeck.length) * 10
      ∧ (s.playerDeck.length = 6 → purgeCost s = 535)
      ∧ (s.playerDeck.length = 52 → purgeCost s = 75)
      ∧ (s.playerDeck.length ≤ 5 →
          purgeCard cid s = { s with message := (purgeCard cid s).message })
      ∧ (5 < s.playerDeck.length → s.essence < purgeCost s →
          purgeCard cid s = { s with message := (purgeCard cid s).message })
      ∧ (5 < s.playerDeck.length → purgeCost s ≤ s.essence →
          (purgeCard cid s).essence = s.essence - purgeCost s
          ∧ (∀ c : PlayingCard,
              c ∈ (purgeCard cid s).playerDeck ↔ c ∈ s.playerDeck ∧ c.id ≠ cid)
          ∧ (∀ c : PlayingCard,
              c ∈ (purgeCard cid s).drawPile ↔ c ∈ s.drawPile ∧ c.id ≠ cid)
          ∧ (∀ c : PlayingCard,
              c ∈ (purgeCard cid s).discardPile ↔ c ∈ s.discardPile ∧ c.id ≠ cid)) := by
  intro s cid
  refine ⟨by unfold purgeCost; rw [jsMax_eq_max], ?_, ?_, ?_, ?_, ?_⟩
  · intro h6
    unfold purgeCost
    rw [h6]
    norm_num [jsMax]
  · intro h52
    unfold purgeCost
    rw [h52]
    norm_num [jsMax]
  · intro hsmall
    have hE : purgeCard cid s = { s with message := "Deck too small to purge." } := by
      unfold purgeCard
      rw [if_pos hsmall]
    rw [hE]
  · intro hbig hess
    have hE : purgeCard cid s
        = { s with message := "Need " ++ toString (purgeCost s) ++ " Essence to purge." } := by
      unfold purgeCard
      rw [if_neg (by omega), if_pos hess]
    rw [hE]
  · intro hbig hess
    have hE : purgeCard cid s
        = { s with
            essence := s.essence - purgeCost s,
            playerDeck := s.playerDeck.filter (fun c => !(c.id == cid)),
            drawPile := s.drawPile.filter (fun c => !(c.id == cid)),
            discardPile := s.discardPile.filter (fun c => !(c.id == cid)),
            message := "Card removed from database." } := by
      unfold purgeCard
      rw [if_neg (by omega), if_neg (not_lt.mpr hess)]
    rw [hE]
    refine ⟨rfl, ?_, ?_, ?_⟩ <;>
      · intro c
        simp [List.mem_filter]

/-- A 6-card master deck state with exactly enough essence to purge. -/
def purgeState : GameState :=
  { credits := 100, essence := 535,
    playerDeck := [aceOne, aceTwo, kingOne, nineOne, fiveOne, sevenOne],
    drawPile := [aceOne, aceTwo, kingOne, nineOne, fiveOne, sevenOne],
    discardPile := [],
    inventory := [], activePassives := [],
    unlockedUpgrades := STARTING_UPGRADE_IDS, offeredUpgradeIds := [],
    playerHand := [], dealerHand := [], currentBet := 0,
    dealerCardRevealed := false, houseLevel := 1,
    corruptionTokens := 0, corruptionThreshold := 8,
    phase := GamePhase.forge, message := "" }

/-- Witness for claim C9: purging a card from a 6-card master deck costs
535 essence, deducts it, and removes the card from the master deck. -/
theorem purge_card_spec_witness :
    purgeCost purgeState = 535
    ∧ (purgeCard idKingOne purgeState).essence = purgeState.essence - purgeCost purgeState
    ∧ ¬ (kingOne ∈ (purgeCard idKingOne purgeState).playerDeck) := by
  have h := purge_card_spec purgeState idKingOne
  have hlen : 5 < purgeState.playerDeck.length := by decide
  have hess : purgeCost purgeState ≤ purgeState.essence := by
    norm_num [purgeCost, purgeState, jsMax]
  refine ⟨h.2.1 (by decide), (h.2.2.2.2.2 hlen hess).1, ?_⟩
  intro hmem
  have := ((h.2.2.2.2.2 hlen hess).2.1 kingOne).mp hmem
  exact this.2 rfl

/-! ## Corruption tokens never negative (claim C10) -/

/-- Claim C10: after every engine action that changes corruption tokens —
placeBet, hit, the Double Down handler, and the reduce-threat consumable —
the corruption-token count stays non-negative when it was non-negative
before: every reduction clamps at 0 via `Math.max(0, _)`. -/
theorem corruption_tokens_nonneg :
    ∀ s : GameState, 0 ≤ s.corruptionTokens →
      (∀ (shuffle : List PlayingCard → List PlayingCard)
          (dd : List PlayingCard) (amt : ℚ) (s' : GameState),
          placeBet shuffle dd amt s = some s' → 0 ≤ s'.corruptionTokens)
      ∧ (∀ shuffle, 0 ≤ (hit shuffle s).corruptionTokens)
      ∧ (∀ shuffle, 0 ≤ (doubleDown shuffle s).corruptionTokens)
      ∧ (∀ idx, 0 ≤ (useConsumable idx s).corruptionTokens) := by
  intro s h0
  refine ⟨?_, ?_, ?_, ?_⟩
  · intro shuffle dd amt s' hEq
    simp only [placeBet] at hEq
    split at hEq
    · simp only [Option.some.injEq] at hEq
      subst hEq
      exact h0
    · split at hEq
      · exact absurd hEq (by simp)
      · split at hEq
        · exact absurd hEq (by simp)
        · simp only [Option.some.injEq] at hEq
          subst hEq
          exact jsMax_zero_nonneg _
  · intro shuffle
    rcases hdc : (drawCard shuffle s.drawPile s.discardPile).card with _ | c
    · simp only [hit, hdc]
      exact h0
    · simp only [hit, hdc]
      exact jsMax_zero_nonneg _
  · intro shuffle
    rcases hdc : (drawCard shuffle s.drawPile s.discardPile).card with _ | c
    · simp only [doubleDown, hdc]
      exact h0
    · simp only [doubleDown, hdc]
      exact jsMax_zero_nonneg _
  · intro idx
    rcases hg : s.inventory.get? idx with _ | item
    · simp only [useConsumable, hg]
      exact h0
    · obtain ⟨iid, iname, icost, itype⟩ := item
      cases itype
      · simp only [useConsumable, hg]
        exact h0
      · simp only [useConsumable, hg]
        exact jsMax_zero_nonneg _
      · simp only [useConsumable, hg]
        exact h0

/-- A tiny state with zero corruption tokens, one coolant consumable, and
a playable hand, used to instantiate the clamping theorem. -/
def coolState : GameState :=
  { credits := 100, essence := 10,
    playerDeck := [fiveOne, fiveTwo, fiveThree],
    drawPile := [fiveThree],
    discardPile := [],
    inventory := [{ id := "coolant", name := "System Coolant", cost := 25,
                    type := ConsumableType.reduce_threat }],
    activePassives := [],
    unlockedUpgrades := STARTING_UPGRADE_IDS, offeredUpgradeIds := [],
    playerHand := [fiveOne, fiveTwo], dealerHand := [dealerKing, dealerNine],
    currentBet := 10, dealerCardRevealed := false, houseLevel := 1,
    corruptionTokens := 0, corruptionThreshold := 8,
    phase := GamePhase.playing, message := "" }

/-- Witness for claim C10: using the System Coolant at zero tokens, and
hitting from the same state, both leave the token count non-negative. -/
theorem corruption_tokens_nonneg_witness :
    0 ≤ (useConsumable 0 coolState).corruptionTokens
    ∧ 0 ≤ (hit id coolState).corruptionTokens := by
  have h := corruption_tokens_nonneg coolState (by norm_num [coolState])
  exact ⟨h.2.2.2 0, h.2.1 id⟩

/-! ## Double Down applies its update twice (claim C3) -/

/-- A playing-phase state with a two-card hand of fives, bet 10 and 100
credits, about to double down. -/
def ddState : GameState :=
  { credits := 100, essence := 0,
    playerDeck := [fiveOne, fiveTwo, fiveThree],
    drawPile := [fiveThree], discardPile := [],
    inventory := [], activePassives := [],
    unlockedUpgrades := STARTING_UPGRADE_IDS, offeredUpgradeIds := [],
    playerHand := [fiveOne, fiveTwo], dealerHand := [dealerKing, dealerNine],
    currentBet := 10, dealerCardRevealed := false, houseLevel := 1,
    corruptionTokens := 0, corruptionThreshold := 8,
    phase := GamePhase.playing, message := "" }

/-- Claim C3 (failing input): doubling down from `ddState` (bet 10,
credits 100) deducts 30 credits — the first queued update deducts 10 and
doubles the bet to 20, the second deducts the already-doubled 20 and
doubles again — leaving 70 credits and a current bet of 40, where the
claim requires 90 credits and a bet of 20.  The drawn card still yields
its per-card effects plus the flat +5 essence, and the phase still moves
to `dealer_turn`. -/
theorem doubleDown_overcharges :
    (doubleDown id ddState).credits = 70
    ∧ (doubleDown id ddState).currentBet = 40
    ∧ (doubleDown id ddState).essence = 6
    ∧ (doubleDown id ddState).phase = GamePhase.dealer_turn
    ∧ ddState.credits = 100
    ∧ ddState.currentBet = 10 := by
  have hdc : (drawCard id ddState.drawPile ddState.discardPile).card
      = some fiveThree := by
    simp [drawCard, ddState]
  refine ⟨?_, ?_, ?_, ?_, rfl, rfl⟩ <;>
    · simp only [doubleDown, hdc]
      norm_num [ddState, processCardEffects, hasPassive, calculateHandScore,
        softenScore, fiveOne, fiveTwo, fiveThree, baseCard, rankValue, jsMax]

/-! ## Dealer cards pollute the discard pile (claim C1) -/

/-- A state mid-round: the player holds King+Queen drawn from the master
deck, the dealer holds two cards from its own fresh deck, one master card
remains in the draw pile. -/
def invState : GameState :=
  { credits := 100, essence := 0,
    playerDeck := [kingOne, queenOne, fiveOne],
    drawPile := [fiveOne], discardPile := [],
    inventory := [], activePassives := [],
    unlockedUpgrades := STARTING_UPGRADE_IDS, offeredUpgradeIds := [],
    playerHand := [kingOne, queenOne], dealerHand := [dealerKing, dealerNine],
    currentBet := 10, dealerCardRevealed := false, houseLevel := 1,
    corruptionTokens := 0, corruptionThreshold := 8,
    phase := GamePhase.dealer_turn, message := "" }

/-- The observable state between rounds: round resolved, then Next Hand
pressed. -/
def postRound : GameState :=
  nextHand (resolveRound rngZero [kingOne, queenOne] [dealerKing, dealerNine]
    10 false invState)

/-- Claim C1 (failing input): after a single resolved round, the dealer's
cards — which were drawn from the dealer's own fresh deck and are not part
of the master deck — sit in the player's discard pile, so at the betting
point between rounds the master deck is not the disjoint union of draw
pile, discard pile and player hand by card identity. -/
theorem master_deck_invariant_violated :
    postRound.discardPile = [kingOne, queenOne, dealerKing, dealerNine]
    ∧ postRound.playerDeck = [kingOne, queenOne, fiveOne]
    ∧ postRound.drawPile = [fiveOne]
    ∧ postRound.playerHand = []
    ∧ postRound.phase = GamePhase.betting
    ∧ dealerKing ∈ postRound.discardPile
    ∧ ¬ (idDealerKing ∈ postRound.playerDeck.map (fun c => c.id))
    ∧ ¬ List.Perm
        (((postRound.drawPile ++ postRound.discardPile ++ postRound.playerHand).map
          (fun c => c.id)))
        (postRound.playerDeck.map (fun c => c.id)) := by
  have hdp : postRound.discardPile = [kingOne, queenOne, dealerKing, dealerNine] := by
    simp [postRound, nextHand, resolveRound, invState]
  have hpd : postRound.playerDeck = [kingOne, queenOne, fiveOne] := by
    simp [postRound, nextHand, resolveRound, invState]
  have hdr : postRound.drawPile = [fiveOne] := by
    simp [postRound, nextHand, resolveRound, invState]
  have hph : postRound.playerHand = [] := by
    simp [postRound, nextHand]
  refine ⟨hdp, hpd, hdr, hph, by simp [postRound, nextHand], ?_, ?_, ?_⟩
  · rw [hdp]
    decide
  · rw [hpd]
    decide
  · rw [hdp, hpd, hdr, hph]
    decide

/-! ## Progression ratchet (claim C7) -/

lemma progress_threshold_mono (rng : ResolveRng) (s : GameState) (o : Outcome) :
    s.corruptionThreshold ≤ (progressAfterWin rng s o).threshold := by
  unfold progressAfterWin
  split
  · dsimp only
    split
    · dsimp only
      linarith
    · dsimp only
      exact le_refl _
  · dsimp only
    exact le_refl _

lemma progress_win_low (rng : ResolveRng) (s : GameState) (o : Outcome)
    (hw : o.win = true) (h : s.corruptionTokens + 1 < s.corruptionThreshold) :
    (progressAfterWin rng s o).tokens = s.corruptionTokens + 1
    ∧ (progressAfterWin rng s o).level = s.houseLevel
    ∧ (progressAfterWin rng s o).threshold = s.corruptionThreshold := by
  unfold progressAfterWin
  rw [hw]
  simp only [if_true]
  rw [if_neg (not_le.mpr h)]
  exact ⟨rfl, rfl, rfl⟩

lemma progress_win_levelup (rng : ResolveRng) (s : GameState) (o : Outcome)
    (hw : o.win = true) (h : s.corruptionThreshold ≤ s.corruptionTokens + 1) :
    (progressAfterWin rng s o).tokens = 0
    ∧ (progressAfterWin rng s o).level = s.houseLevel + 1
    ∧ (progressAfterWin rng s o).threshold = s.corruptionThreshold + 2 := by
  unfold progressAfterWin
  rw [hw]
  simp only [if_true]
  rw [if_pos h]
  exact ⟨rfl, rfl, rfl⟩

lemma resolveRound_corruption_fields (rng : ResolveRng)
    (pHand dHand : List PlayingCard) (bet : ℚ) (busted : Bool) (s : GameState) :
    (resolveRound rng pHand dHand bet busted s).corruptionTokens
      = (progressAfterWin rng s (baseOutcome rng.rolls s pHand dHand bet busted)).tokens
    ∧ (resolveRound rng pHand dHand bet busted s).houseLevel
      = (progressAfterWin rng s (baseOutcome rng.rolls s pHand dHand bet busted)).level
    ∧ (resolveRound rng pHand dHand bet busted s).corruptionThreshold
      = (progressAfterWin rng s (baseOutcome rng.rolls s pHand dHand bet busted)).threshold := by
  unfold resolveRound
  exact ⟨rfl, rfl, rfl⟩

/-- One winning round against the fixed 20-vs-19 hands, resolved with the
deterministic random source. -/
def winStep (s : GameState) : GameState :=
  resolveRound rngZero [kingOne, queenOne] [dealerKing, dealerNine] 10 false s

lemma winStep_outcome (s : GameState) :
    baseOutcome rngZero.rolls s [kingOne, queenOne] [dealerKing, dealerNine]
      10 false
    = { win := true, payout := 10 * 2, essenceBonus := 10, msg := "You win!" } := by
  have hps : calculateHandScore [kingOne, queenOne] = 20 := by decide
  have hds : calculateHandScore [dealerKing, dealerNine] = 19 := by decide
  unfold baseOutcome
  rw [hps, hds]
  norm_num

/-- Claim C7: a round resolved as a win raises corruption tokens by
exactly 1; when the raised count reaches the threshold the house level
rises by 1, tokens reset to 0 and the threshold rises by exactly 2; the
threshold never decreases across any round resolution; and starting at
house level 1 with threshold 8 and 0 tokens, 8 consecutive wins (with no
card effects touching corruption) end at house level 2, tokens 0,
threshold 10. -/
theorem progression_ratchet :
    (∀ (rng : ResolveRng) (pHand dHand : List PlayingCard) (bet : ℚ)
        (busted : Bool) (s : GameState),
        s.corruptionThreshold
          ≤ (resolveRound rng pHand dHand bet busted s).corruptionThreshold)
    ∧ (∀ (rng : ResolveRng) (pHand dHand : List PlayingCard) (bet : ℚ)
        (busted : Bool) (s : GameState),
        (baseOutcome rng.rolls s pHand dHand bet busted).win = true →
        (s.corruptionTokens + 1 < s.corruptionThreshold →
           (resolveRound rng pHand dHand bet busted s).corruptionTokens
             = s.corruptionTokens + 1
           ∧ (resolveRound rng pHand dHand bet busted s).houseLevel = s.houseLevel
           ∧ (resolveRound rng pHand dHand bet busted s).corruptionThreshold
             = s.corruptionThreshold)
        ∧ (s.corruptionThreshold ≤ s.corruptionTokens + 1 →
           (resolveRound rng pHand dHand bet busted s).corruptionTokens = 0
           ∧ (resolveRound rng pHand dHand bet busted s).houseLevel
             = s.houseLevel + 1
           ∧ (resolveRound rng pHand dHand bet busted s).corruptionThreshold
             = s.corruptionThreshold + 2))
    ∧ (winStep^[8] invState).houseLevel = 2
    ∧ (winStep^[8] invState).corruptionTokens = 0
    ∧ (winStep^[8] invState).corruptionThreshold = 10 := by
  have hfields := resolveRound_corruption_fields
  refine ⟨?_, ?_, ?_⟩
  · intro rng pHand dHand bet busted s
    rw [(hfields rng pHand dHand bet busted s).2.2]
    exact progress_threshold_mono _ _ _
  · intro rng pHand dHand bet busted s hw
    constructor
    · intro h
      obtain ⟨a, b, c⟩ := progress_win_low rng s _ hw h
      refine ⟨?_, ?_, ?_⟩
      · rw [(hfields rng pHand dHand bet busted s).1, a]
      · rw [(hfields rng pHand dHand bet busted s).2.1, b]
      · rw [(hfields rng pHand dHand bet busted s).2.2, c]
    · intro h
      obtain ⟨a, b, c⟩ := progress_win_levelup rng s _ hw h
      refine ⟨?_, ?_, ?_⟩
      · rw [(hfields rng pHand dHand bet busted s).1, a]
      · rw [(hfields rng pHand dHand bet busted s).2.1, b]
      · rw [(hfields rng pHand dHand bet busted s).2.2, c]
  · have step_low : ∀ (s : GameState) (t : ℚ), s.corruptionTokens = t →
        s.houseLevel = 1 → s.corruptionThreshold = 8 → t + 1 < 8 →
        (winStep s).corruptionTokens = t + 1 ∧ (winStep s).houseLevel = 1
        ∧ (winStep s).corruptionThreshold = 8 := by
      intro s t ht hl hth h
      have hw : (baseOutcome rngZero.rolls s [kingOne, queenOne]
          [dealerKing, dealerNine] 10 false).win = true := by
        rw [winStep_outcome]
      obtain ⟨a, b, c⟩ := progress_win_low rngZero s _ hw (by rw [ht, hth]; exact h)
      have hf := hfields rngZero [kingOne, queenOne] [dealerKing, dealerNine]
        10 false s
      exact ⟨by rw [show (winStep s).corruptionTokens = _ from hf.1, a, ht],
        by rw [show (winStep s).houseLevel = _ from hf.2.1, b, hl],
        by rw [show (winStep s).corruptionThreshold = _ from hf.2.2, c, hth]⟩
    have step_up : ∀ (s : GameState) (t : ℚ), s.corruptionTokens = t →
        s.houseLevel = 1 → s.corruptionThreshold = 8 → 8 ≤ t + 1 →
        (winStep s).corruptionTokens = 0 ∧ (winStep s).houseLevel = 2
        ∧ (winStep s).corruptionThreshold = 10 := by
      intro s t ht hl hth h
      have hw : (baseOutcome rngZero.rolls s [kingOne, queenOne]
          [dealerKing, dealerNine] 10 false).win = true := by
        rw [winStep_outcome]
      obtain ⟨a, b, c⟩ := progress_win_levelup rngZero s _ hw (by rw [ht, hth]; exact h)
      have hf := hfields rngZero [kingOne, queenOne] [dealerKing, dealerNine]
        10 false s
      exact ⟨by rw [show (winStep s).corruptionTokens = _ from hf.1, a],
        by rw [show (winStep s).houseLevel = _ from hf.2.1, b, hl],
        by rw [show (winStep s).corruptionThreshold = _ from hf.2.2, c, hth]; norm_num⟩
    have T1 := step_low invState 0 rfl rfl rfl (by norm_num)
    have T2 := step_low (winStep invState) (0 + 1) T1.1 T1.2.1 T1.2.2 (by norm_num)
    have T3 := step_low (winStep (winStep invState)) (0 + 1 + 1)
      T2.1 T2.2.1 T2.2.2 (by norm_num)
    have T4 := step_low (winStep (winStep (winStep invState))) (0 + 1 + 1 + 1)
      T3.1 T3.2.1 T3.2.2 (by norm_num)
    have T5 := step_low (winStep (winStep (winStep (winStep invState))))
      (0 + 1 + 1 + 1 + 1) T4.1 T4.2.1 T4.2.2 (by norm_num)
    have T6 := step_low (winStep (winStep (winStep (winStep (winStep invState)))))
      (0 + 1 + 1 + 1 + 1 + 1) T5.1 T5.2.1 T5.2.2 (by norm_num)
    have T7 := step_low
      (winStep (winStep (winStep (winStep (winStep (winStep invState))))))
      (0 + 1 + 1 + 1 + 1 + 1 + 1) T6.1 T6.2.1 T6.2.2 (by norm_num)
    have T8 := step_up
      (winStep (winStep (winStep (winStep (winStep (winStep (winStep invState)))))))
      (0 + 1 + 1 + 1 + 1 + 1 + 1 + 1) T7.1 T7.2.1 T7.2.2 (by norm_num)
    have hiter : winStep^[8] invState
        = winStep (winStep (winStep (winStep (winStep (winStep (winStep
            (winStep invState))))))) := by
      simp only [Function.iterate_succ_apply', Function.iterate_zero_apply]
    rw [hiter]
    exact ⟨T8.2.1, T8.1, T8.2.2⟩

/-- Witness for claim C7: one winning resolution from the concrete
starting state raises corruption tokens from 0 to 1 and leaves level and
threshold unchanged. -/
theorem progression_ratchet_witness :
    (resolveRound rngZero [kingOne, queenOne] [dealerKing, dealerNine] 10
      false invState).corruptionTokens = invState.corruptionTokens + 1
    ∧ (resolveRound rngZero [kingOne, queenOne] [dealerKing, dealerNine] 10
      false invState).houseLevel = invState.houseLevel := by
  have h := (progression_ratchet.2.1 rngZero [kingOne, queenOne]
    [dealerKing, dealerNine] 10 false invState (by rw [winStep_outcome])).1
    (by norm_num [invState])
  exact ⟨h.1, h.2.1⟩

/-! ## Shield mitigation (claim C6) -/

lemma progress_noWin (rng : ResolveRng) (s : GameState) (o : Outcome)
    (hw : o.win = false) :
    (progressAfterWin rng s o).tokens = s.corruptionTokens
    ∧ (progressAfterWin rng s o).level = s.houseLevel
    ∧ (progressAfterWin rng s o).threshold = s.corruptionThreshold := by
  unfold progressAfterWin
  rw [hw, if_neg (by simp : ¬ (false = true))]
  exact ⟨rfl, rfl, rfl⟩

lemma baseOutcome_busted (rolls : Nat → ℚ) (s : GameState)
    (pHand dHand : List PlayingCard) (bet : ℚ) :
    baseOutcome rolls s pHand dHand bet true
      = if shieldTriggered rolls pHand then
          { win := false, payout := bet * 0.5, essenceBonus := 0,
            msg := "FAILURE MITIGATED [SHIELD]." }
        else
          { win := false, payout := 0, essenceBonus := 0,
            msg := "Busted! House wins." } := by
  unfold baseOutcome
  rw [if_pos rfl]

/-- Claim C6: with `busted = true`, each shield upgrade on the player hand
gets one independent trial (the i-th roll against the i-th shield
upgrade's value); any success makes the payout exactly 0.5 × bet, and
either way the outcome is a loss — the win multiplier is not applied and
corruption tokens do not move; a shield upgrade of value 1 always
triggers when the rolls stay below 1. -/
theorem shield_mitigation_spec :
    ∀ (rng : ResolveRng) (s : GameState) (pHand dHand : List PlayingCard)
      (bet : ℚ),
      (baseOutcome rng.rolls s pHand dHand bet true).win = false
      ∧ (baseOutcome rng.rolls s pHand dHand bet true).payout
          = (if shieldTriggered rng.rolls pHand then bet * 0.5 else 0)
      ∧ adjustedPayout s pHand bet (baseOutcome rng.rolls s pHand dHand bet true)
          = (baseOutcome rng.rolls s pHand dHand bet true).payout
      ∧ (resolveRound rng pHand dHand bet true s).corruptionTokens
          = s.corruptionTokens
      ∧ (resolveRound rng pHand dHand bet true s).houseLevel = s.houseLevel
      ∧ (shieldTriggered rng.rolls pHand = true ↔
          ∃ i u, (shieldUpgrades pHand)[i]? = some u ∧ rng.rolls i < u.value)
      ∧ ((∀ n, rng.rolls n < 1) →
          (∃ u ∈ shieldUpgrades pHand, u.value = 1) →
          shieldTriggered rng.rolls pHand = true) := by
  intro rng s pHand dHand bet
  have hwin : (baseOutcome rng.rolls s pHand dHand bet true).win = false := by
    rw [baseOutcome_busted]
    split <;> rfl
  have hiff : shieldTriggered rng.rolls pHand = true ↔
      ∃ i u, (shieldUpgrades pHand)[i]? = some u ∧ rng.rolls i < u.value := by
    unfold shieldTriggered
    rw [List.any_eq_true]
    constructor
    · rintro ⟨⟨i, u⟩, hmem, hpred⟩
      exact ⟨i, u, List.mk_mem_enum_iff_getElem?.mp hmem, of_decide_eq_true hpred⟩
    · rintro ⟨i, u, hget, hlt⟩
      exact ⟨(i, u), List.mk_mem_enum_iff_getElem?.mpr hget, decide_eq_true hlt⟩
  refine ⟨hwin, ?_, ?_, ?_, ?_, hiff, ?_⟩
  · rw [baseOutcome_busted]
    split <;> rfl
  · unfold adjustedPayout
    rw [hwin]
    simp only [Bool.false_eq_true, if_false]
  · rw [(resolveRound_corruption_fields rng pHand dHand bet true s).1,
      (progress_noWin rng s _ hwin).1]
  · rw [(resolveRound_corruption_fields rng pHand dHand bet true s).2.1,
      (progress_noWin rng s _ hwin).2.1]
  · intro hb hex
    obtain ⟨u, hmem, hval⟩ := hex
    obtain ⟨i, hget⟩ := List.mem_iff_getElem?.mp hmem
    exact hiff.mpr ⟨i, u, hget, by rw [hval]; exact hb i⟩

/-- Witness for claim C6: a single hand card carrying a value-1 shield
upgrade, rolls all 0: the trial triggers, the outcome is a loss, and the
payout is half the bet. -/
theorem shield_mitigation_spec_witness :
    shieldTriggered rngZero.rolls [fiveShielded] = true
    ∧ (baseOutcome rngZero.rolls ddState [fiveShielded] [dealerKing] 10 true).payout
        = 10 * 0.5
    ∧ (baseOutcome rngZero.rolls ddState [fiveShielded] [dealerKing] 10 true).win
        = false := by
  have h := shield_mitigation_spec rngZero ddState [fiveShielded] [dealerKing] 10
  have htrig : shieldTriggered rngZero.rolls [fiveShielded] = true := by
    refine h.2.2.2.2.2.2 (fun n => by norm_num [rngZero]) ?_
    refine ⟨shieldSure, ?_, rfl⟩
    simp [shieldUpgrades, fiveShielded, shieldSure, baseCard]
  refine ⟨htrig, ?_, h.1⟩
  rw [h.2.1, if_pos htrig]

/-! ## Tie resolution (claim C2) -/

/-- A house-level-1 state in which the player hand Q(+Lucky Charm)+J ties
the dealer hand K+10 at 20. -/
def tieState : GameState :=
  { credits := 100, essence := 0,
    playerDeck := [queenLucky, jackOne, fiveOne],
    drawPile := [fiveOne], discardPile := [],
    inventory := [], activePassives := [],
    unlockedUpgrades := STARTING_UPGRADE_IDS, offeredUpgradeIds := [],
    playerHand := [queenLucky, jackOne], dealerHand := [dealerKing, dealerTen],
    currentBet := 10, dealerCardRevealed := false, houseLevel := 1,
    corruptionTokens := 0, corruptionThreshold := 8,
    phase := GamePhase.dealer_turn, message := "" }

lemma tieState_outcome :
    baseOutcome rngZero.rolls tieState [queenLucky, jackOne]
      [dealerKing, dealerTen] 10 false
    = { win := true, payout := 10 * 2, essenceBonus := 0,
        msg := "Tie! System yields to user." } := by
  have hps : calculateHandScore [queenLucky, jackOne] = 20 := by decide
  have hds : calculateHandScore [dealerKing, dealerTen] = 20 := by decide
  unfold baseOutcome
  rw [hps, hds]
  norm_num [tieState, isBossLevel]

/-- Claim C2 is refuted at this input: in a house-level-1 tie at 20 with a
single critical (+0.25) upgrade on a hand card, the round is a win and the
critical multiplier IS applied to the tie-win payout, which becomes
10 + 10 × 1.25 = 22.5 rather than the claimed 2 × bet = 20. -/
theorem tie_win_multiplier_counterexample :
    (baseOutcome rngZero.rolls tieState [queenLucky, jackOne]
      [dealerKing, dealerTen] 10 false).win = true
    ∧ adjustedPayout tieState [queenLucky, jackOne] 10
        (baseOutcome rngZero.rolls tieState [queenLucky, jackOne]
          [dealerKing, dealerTen] 10 false) = 45 / 2
    ∧ (resolveRound rngZero [queenLucky, jackOne] [dealerKing, dealerTen]
        10 false tieState).credits = tieState.credits + 45 / 2
    ∧ ¬ ((45 : ℚ) / 2 = 2 * 10) := by
  have hm : winMultiplier tieState [queenLucky, jackOne] = 1 + 1 / 4 := by
    norm_num [winMultiplier, queenLucky, jackOne, lucky_charm, baseCard,
      hasPassive, tieState]
  have hadj : adjustedPayout tieState [queenLucky, jackOne] 10
      (baseOutcome rngZero.rolls tieState [queenLucky, jackOne]
        [dealerKing, dealerTen] 10 false) = 45 / 2 := by
    unfold adjustedPayout
    rw [tieState_outcome, hm]
    norm_num
  refine ⟨by rw [tieState_outcome], hadj, ?_, by norm_num⟩
  show (resolveRound rngZero [queenLucky, jackOne] [dealerKing, dealerTen]
      10 false tieState).credits = tieState.credits + 45 / 2
  unfold resolveRound
  dsimp only
  rw [hadj]
  have hps : calculateHandScore [queenLucky, jackOne] = 20 := by decide
  rw [hps]
  norm_num

/-- Claim C2, amended: in a tie with no natural blackjack on either side
and a non-busting dealer, house level ≥ 7 or a boss round is a loss with
payout 0; house level ≤ 2 is a win whose payout gets the standard win
multiplier applied to the profit, `bet + bet × multiplier` (exactly
2 × bet only when no critical upgrades and no VIP boon are present);
otherwise it is a push with payout exactly the bet. -/
theorem tie_resolution_spec :
    ∀ (rng : ResolveRng) (s : GameState) (pHand dHand : List PlayingCard)
      (bet : ℚ),
      calculateHandScore pHand = calculateHandScore dHand →
      calculateHandScore dHand ≤ 21 →
      ¬ (pHand.length = 2 ∧ calculateHandScore pHand = 21) →
      ¬ (dHand.length = 2 ∧ calculateHandScore dHand = 21) →
      ((7 ≤ s.houseLevel ∨ isBossLevel s.houseLevel) →
         (baseOutcome rng.rolls s pHand dHand bet false).win = false
         ∧ adjustedPayout s pHand bet
             (baseOutcome rng.rolls s pHand dHand bet false) = 0)
      ∧ (¬ (7 ≤ s.houseLevel ∨ isBossLevel s.houseLevel) → s.houseLevel ≤ 2 →
         (baseOutcome rng.rolls s pHand dHand bet false).win = true
         ∧ adjustedPayout s pHand bet
             (baseOutcome rng.rolls s pHand dHand bet false)
           = bet + bet * winMultiplier s pHand)
      ∧ (¬ (7 ≤ s.houseLevel ∨ isBossLevel s.houseLevel) → ¬ s.houseLevel ≤ 2 →
         (baseOutcome rng.rolls s pHand dHand bet false).win = false
         ∧ adjustedPayout s pHand bet
             (baseOutcome rng.rolls s pHand dHand bet false) = bet) := by
  intro rng s pHand dHand bet heq hdle hpbj hdbj
  have hkey : baseOutcome rng.rolls s pHand dHand bet false
      = if 7 ≤ s.houseLevel ∨ isBossLevel s.houseLevel then
          { win := false, payout := 0, essenceBonus := 0,
            msg := if isBossLevel s.houseLevel then "Boss wins Ties."
                   else "Tie! House wins due to corruption." }
        else if s.houseLevel ≤ 2 then
          { win := true, payout := bet * 2, essenceBonus := 0,
            msg := "Tie! System yields to user." }
        else
          { win := false, payout := bet, essenceBonus := 0, msg := "Push." } := by
    unfold baseOutcome
    rw [if_neg (by simp : ¬ (false = true)),
      if_neg (not_lt.mpr hdle), if_neg hpbj, if_neg hdbj,
      if_neg (by rw [heq]; exact lt_irrefl _), if_pos heq]
  refine ⟨?_, ?_, ?_⟩
  · intro h7
    rw [hkey, if_pos h7]
    constructor
    · rfl
    · unfold adjustedPayout
      rfl
  · intro h7 h2
    rw [hkey, if_neg h7, if_pos h2]
    constructor
    · rfl
    · unfold adjustedPayout
      dsimp only
      rw [if_pos rfl]
      ring
  · intro h7 h2
    rw [hkey, if_neg h7, if_neg h2]
    constructor
    · rfl
    · unfold adjustedPayout
      rfl

/-- Witness for claim C2 (amended): the concrete level-1 tie at 20 is a
win and its payout carries the multiplier. -/
theorem tie_resolution_spec_witness :
    (baseOutcome rngZero.rolls tieState [queenLucky, jackOne]
      [dealerKing, dealerTen] 10 false).win = true
    ∧ adjustedPayout tieState [queenLucky, jackOne] 10
        (baseOutcome rngZero.rolls tieState [queenLucky, jackOne]
          [dealerKing, dealerTen] 10 false)
      = 10 + 10 * winMultiplier tieState [queenLucky, jackOne] := by
  exact (tie_resolution_spec rngZero tieState [queenLucky, jackOne]
    [dealerKing, dealerTen] 10 (by decide) (by decide) (by decide) (by decide)).2.1
    (by decide) (by decide)

/-! ## placeBet validity (claim C4) -/

lemma drawCard_nonempty (shuffle : List PlayingCard → List PlayingCard)
    (dp dcp : List PlayingCard) (h : dp ≠ []) :
    drawCard shuffle dp dcp
      = { card := some (dp.getLast h), newDraw := dp.dropLast,
          newDiscard := dcp } := by
  have hne : dp.isEmpty = false := by simpa [List.isEmpty_iff] using h
  unfold drawCard
  simp only [hne, Bool.false_eq_true, if_false,
    List.getLast?_eq_getLast_of_ne_nil h]

lemma processCardEffects_noUpgrades (s : GameState) (c : PlayingCard)
    (h : c.upgrades = []) :
    processCardEffects s c
      = { essenceDelta := if s.houseLevel = 3 then 0 else 1,
          creditDelta := 0, corruptionDelta := 0 } := by
  unfold processCardEffects
  rw [h]
  rfl

/-- The dealer's freshly shuffled deck for the worked examples, reduced to
the two cards that will actually be popped. -/
def betDealerDeck : List PlayingCard := [dealerNine, dealerKing]

/-- A state in the `playing` phase (not `betting`) with ample credits. -/
def betState : GameState :=
  { credits := 100, essence := 5,
    playerDeck := [nineOne, sevenOne],
    drawPile := [nineOne, sevenOne], discardPile := [],
    inventory := [], activePassives := [],
    unlockedUpgrades := STARTING_UPGRADE_IDS, offeredUpgradeIds := [],
    playerHand := [], dealerHand := [], currentBet := 0,
    dealerCardRevealed := false, houseLevel := 1,
    corruptionTokens := 0, corruptionThreshold := 8,
    phase := GamePhase.playing, message := "" }

lemma placeBet_betState_eval :
    placeBet id betDealerDeck 10 betState
      = some { betState with
          credits := 90, essence := 7, corruptionTokens := 0,
          currentBet := 10, dealerCardRevealed := false,
          playerHand := [sevenOne, nineOne],
          dealerHand := [dealerKing, dealerNine],
          drawPile := [], discardPile := [],
          phase := GamePhase.playing, message := "Hit or Stand?" } := by
  have h1 : (betState.drawPile : List PlayingCard) ≠ [] := by decide
  have h2 : (betState.drawPile.dropLast : List PlayingCard) ≠ [] := by decide
  have hd1 := drawCard_nonempty id betState.drawPile betState.discardPile h1
  have hd2 := drawCard_nonempty id betState.drawPile.dropLast
    betState.discardPile h2
  simp only [placeBet, hd1, hd2]
  norm_num [betState, processCardEffects, hasPassive, isBossLevel,
    calculateHandScore, softenScore, nineOne, sevenOne, dealerKing,
    dealerNine, baseCard, rankValue, betDealerDeck, jsMax,
    List.getLast, List.dropLast]

/-- Claim C4 is refuted at this input: `placeBet` performs no phase check,
so invoked in the `playing` phase with sufficient credits it deals a fresh
round — deducting the bet and rewriting the hand — instead of leaving the
state unchanged. -/
theorem placeBet_no_phase_check_counterexample :
    betState.phase = GamePhase.playing
    ∧ betState.currentBet = 0
    ∧ (placeBet id betDealerDeck 10 betState).map (fun t => t.currentBet)
        = some 10
    ∧ (placeBet id betDealerDeck 10 betState).map (fun t => t.credits)
        = some 90
    ∧ (placeBet id betDealerDeck 10 betState).map (fun t => t.playerHand)
        = some [sevenOne, nineOne] := by
  rw [placeBet_betState_eval]
  exact ⟨rfl, rfl, rfl, rfl, rfl⟩

/-- Claim C4, amended: `placeBet` checks only that the bet does not exceed
the credits — the betting-phase restriction is enforced by the UI, which
renders the action only in that phase, while the function itself behaves
identically in every phase.  With insufficient credits it is a no-op that
changes only the status message; when valid it deducts the bet from
credits immediately and installs it as the current bet. -/
theorem placeBet_spec :
    ∀ (shuffle : List PlayingCard → List PlayingCard) (dd : List PlayingCard)
      (amt : ℚ) (s : GameState) (p : GamePhase),
      (s.credits < amt →
        placeBet shuffle dd amt s
          = some { s with message := "Not enough credits." })
      ∧ (amt ≤ s.credits →
        placeBet shuffle dd amt { s with phase := p }
          = placeBet shuffle dd amt s)
      ∧ (amt ≤ s.credits → 2 ≤ s.drawPile.length →
         (∀ c ∈ s.drawPile, c.upgrades = []) →
         ∀ s', placeBet shuffle dd amt s = some s' →
           s'.credits = s.credits - amt ∧ s'.currentBet = amt) := by
  intro shuffle dd amt s p
  refine ⟨?_, ?_, ?_⟩
  · intro h
    unfold placeBet
    rw [if_pos h]
  · intro h
    unfold placeBet
    rw [if_neg (not_lt.mpr h),
      if_neg (show ¬ (GameState.credits { s with phase := p } < amt) from
        not_lt.mpr h)]
    rfl
  · intro hge hlen hupg s' hEq
    have hne1 : s.drawPile ≠ [] := by
      intro hnil
      rw [hnil] at hlen
      simp at hlen
    have hne2 : s.drawPile.dropLast ≠ [] := by
      have hL := s.drawPile.length_dropLast
      intro hnil
      rw [hnil] at hL
      simp at hL
      omega
    have hd1 := drawCard_nonempty shuffle s.drawPile s.discardPile hne1
    have hd2 := drawCard_nonempty shuffle s.drawPile.dropLast s.discardPile hne2
    have he1 := processCardEffects_noUpgrades s (s.drawPile.getLast hne1)
      (hupg _ (List.getLast_mem hne1))
    have he2 := processCardEffects_noUpgrades s (s.drawPile.dropLast.getLast hne2)
      (hupg _ (List.dropLast_subset _ (List.getLast_mem hne2)))
    simp only [placeBet, if_neg (not_lt.mpr hge), hd1, hd2, he1, he2] at hEq
    split at hEq
    · exact absurd hEq (by simp)
    · split at hEq
      · exact absurd hEq (by simp)
      · rw [Option.some_inj] at hEq
        subst hEq
        refine ⟨?_, rfl⟩
        show s.credits - amt + (0 + 0) = s.credits - amt
        ring

/-- Witness for claim C4 (amended): the valid-bet clause applied to the
concrete state — the bet is deducted and installed. -/
theorem placeBet_spec_witness :
    (placeBet id betDealerDeck 10 betState).map (fun t => t.credits)
      = some (betState.credits - 10)
    ∧ (placeBet id betDealerDeck 10 betState).map (fun t => t.currentBet)
      = some 10 := by
  have h := (placeBet_spec id betDealerDeck 10 betState GamePhase.betting).2.2
    (by norm_num [betState]) (by decide) (by decide)
  cases hEq : placeBet id betDealerDeck 10 betState with
  | none => rw [placeBet_betState_eval] at hEq; exact absurd hEq (by simp)
  | some s' =>
    obtain ⟨hc, hb⟩ := h s' hEq
    simp [hc, hb]

end VoidBJ
